import Mathlib

/-!
Verification of the phone-ownership / message-delivery backend.

The definitions below are a shallow embedding of the backend's JavaScript
source: the phone normalizer and claim workflow from the auth route module,
the phone-link synchronisation helper, and the message-delivery route module
(send, delivery-receipt, pending-sync).  The document store is modelled as
explicit lists of records; `findOne` becomes `List.find?`, `updateMany`
becomes `List.map` guarded by the query predicate, `findOneAndUpdate` with
upsert becomes update-first-or-append, and timestamps are naturals
(milliseconds).  External collaborators (push relay, auth provider) are
parameters: the relay outcome is an explicit argument, the verified caller
identity an explicit string.
-/

namespace AccountBackend

/-! ## Phone normalizer (routes/users.js, auth route module)

`normalizePhoneForLookup` in the source strips every non-digit character,
returns the empty string when nothing is left, keeps the last 10 digits when
more than 10 remain, and rejects (empty string) inputs with fewer than 8
digits.  The leading `if (!value) return ''` guard of the source is subsumed
by the empty-digit check (an empty input has no digit characters). -/

/-! ## Kernel-reducible string primitives

`String.trim`, `String.toLower`, `String.endsWith`, `String.startsWith` and
`String.splitOn` of the standard library are implemented on `Substring`
positions and do not reduce inside the kernel; the list-based equivalents
below implement the same operations for the embedding. -/

def jsTrim (s : String) : String :=
  String.mk
    (((s.data.dropWhile Char.isWhitespace).reverse.dropWhile
        Char.isWhitespace).reverse)

def strToLower (s : String) : String :=
  String.mk (s.data.map Char.toLower)

def strEndsWith (s suffixStr : String) : Bool :=
  s.data.reverse.take suffixStr.data.length = suffixStr.data.reverse

def startsWithPlus (s : String) : Bool :=
  match s.data with
  | '+' :: _ => true
  | _ => false

def splitOnCharAux (sep : Char) (acc : List Char) : List Char → List String
  | [] => [String.mk acc.reverse]
  | c :: cs =>
    if c = sep then String.mk acc.reverse :: splitOnCharAux sep [] cs
    else splitOnCharAux sep (c :: acc) cs

def splitOnChar (sep : Char) (s : String) : List String :=
  splitOnCharAux sep [] s.data

def normKeyList (l : List Char) : List Char :=
  if l.filter Char.isDigit = [] then []
  else if 10 < (l.filter Char.isDigit).length then
    (l.filter Char.isDigit).drop ((l.filter Char.isDigit).length - 10)
  else if (l.filter Char.isDigit).length < 8 then []
  else l.filter Char.isDigit

def normalizePhoneForLookup (value : String) : String :=
  String.mk (normKeyList value.data)

/-- `normalizeFullPhone`: strip non-digits, keep a leading `+`. -/
def normalizeFullPhone (value : String) : String :=
  let digits := String.mk (value.data.filter Char.isDigit)
  if digits = "" then ""
  else if startsWithPlus value then "+" ++ digits else digits

theorem mem_normKeyList_isDigit {l : List Char} {c : Char}
    (h : c ∈ normKeyList l) : Char.isDigit c := by
  unfold normKeyList at h
  split_ifs at h with h1 h2 h3
  · exact absurd h (List.not_mem_nil c)
  · have hmem : c ∈ l.filter Char.isDigit :=
      (List.drop_sublist _ _).mem h
    exact (List.mem_filter.mp hmem).2
  · exact absurd h (List.not_mem_nil c)
  · exact (List.mem_filter.mp h).2

theorem filter_normKeyList (l : List Char) :
    (normKeyList l).filter Char.isDigit = normKeyList l :=
  List.filter_eq_self.mpr fun _ ha => mem_normKeyList_isDigit ha

theorem normKeyList_shape (l : List Char) :
    normKeyList l = [] ∨
      (8 ≤ (normKeyList l).length ∧ (normKeyList l).length ≤ 10) := by
  unfold normKeyList
  split_ifs with h1 h2 h3
  · exact Or.inl rfl
  · right
    rw [List.length_drop]
    omega
  · exact Or.inl rfl
  · right
    omega

theorem normKeyList_fixed {r : List Char} (hf : r.filter Char.isDigit = r)
    (hr : r = [] ∨ (8 ≤ r.length ∧ r.length ≤ 10)) : normKeyList r = r := by
  unfold normKeyList
  rw [hf]
  rcases hr with h | ⟨h8, h10⟩
  · simp [h]
  · rw [if_neg, if_neg, if_neg]
    · omega
    · omega
    · intro hnil
      rw [hnil] at h8
      simp at h8

theorem normKeyList_idem (l : List Char) :
    normKeyList (normKeyList l) = normKeyList l :=
  normKeyList_fixed (filter_normKeyList l) (normKeyList_shape l)

/-- C9: for every phone input string, the lookup-key normalization is
idempotent: `normalize (normalize x) = normalize x`. -/
theorem normalizePhoneForLookup_idempotent (x : String) :
    normalizePhoneForLookup (normalizePhoneForLookup x) = normalizePhoneForLookup x := by
  unfold normalizePhoneForLookup
  exact congrArg String.mk (normKeyList_idem x.data)

/-! ## Message delivery tracker (routes/messages.js, evolved version)

`MessageDelivery` documents are modelled as `Delivery` records;
`retryCount`, timestamps and expiry are naturals (epoch milliseconds),
nullable fields are `Option`.  `UserRec` models the user-directory records
the send path reads (`firebaseUid`, `_id`, `mobile`, `fcmToken`, ...). -/

structure Delivery where
  messageId : String
  conversationId : String
  senderId : String
  receiverId : String
  messageText : String
  messageTimestamp : Nat
  status : String
  lastError : Option String
  retryCount : Nat
  deliveredAt : Option Nat
  readAt : Option Nat
  expiresAt : Nat
  createdAt : Nat
  updatedAt : Nat
deriving DecidableEq, Repr

structure UserRec where
  firebaseUid : String
  mongoId : String
  mobile : Option String
  mobileNormalized : Option String
  fcmToken : Option String
  displayName : Option String
  username : Option String
  searchableTerms : List String
deriving DecidableEq, Repr

/-- `STATUS_ORDER` lookup table; a status missing from the table yields
`none` (the source then falls back to rank 0 via `?? 0`). -/
def STATUS_ORDER (s : String) : Option Nat :=
  if s = "accepted" then some 1
  else if s = "pushed" then some 2
  else if s = "delivered" then some 3
  else if s = "read" then some 4
  else if s = "failed" then some 0
  else none

def statusRank (s : String) : Nat := (STATUS_ORDER s).getD 0

def shouldAdvanceStatus (currentStatus nextStatus : String) : Bool :=
  statusRank currentStatus ≤ statusRank nextStatus

def DELIVERY_TTL_MS : Nat := 14 * 24 * 60 * 60 * 1000
def PENDING_TTL_MS : Nat := 24 * 60 * 60 * 1000
def DELIVERED_TTL_MS : Nat := 2 * 60 * 1000

/-- `expiryForStatus`: TTL horizon computed from the (new) status; the
14-day `nextExpiryDate` calendar fallback is modelled as 14 days in
milliseconds. -/
def expiryForStatus (status : Option String) (now : Nat) : Nat :=
  let normalized := strToLower (status.getD "")
  if normalized = "delivered" ∨ normalized = "read" then now + DELIVERED_TTL_MS
  else if normalized = "accepted" ∨ normalized = "pushed" ∨ normalized = "failed" then
    now + PENDING_TTL_MS
  else now + DELIVERY_TTL_MS

/-- `findOneAndUpdate`'s update of the first matching document. -/
def updateFirst (p : α → Bool) (f : α → α) : List α → List α
  | [] => []
  | x :: xs => if p x then f x :: xs else x :: updateFirst p f xs

/-- Parameters of `saveDeliveryState`; `status`/`lastError` are optional
exactly as in the source (`status` guarded by JS truthiness, `lastError`
defaulting to `null`). -/
structure SaveParams where
  messageId : String
  conversationId : String
  senderId : String
  receiverId : String
  messageText : String
  messageTimestamp : Nat
  status : Option String
  lastError : Option String
deriving DecidableEq, Repr

/-- The `$set` part of `saveDeliveryState` applied to an existing document. -/
def applySaveUpdate (p : SaveParams) (now : Nat) (d : Delivery) : Delivery :=
  let d1 : Delivery :=
    { d with
      conversationId := p.conversationId
      senderId := p.senderId
      receiverId := p.receiverId
      messageText := p.messageText
      messageTimestamp := p.messageTimestamp
      expiresAt := expiryForStatus p.status now
      updatedAt := now }
  let d2 : Delivery :=
    match p.status with
    | some s => if s = "" then d1 else { d1 with status := s }
    | none => d1
  match p.lastError with
  | some e => { d2 with lastError := some e, retryCount := 1 }
  | none => { d2 with lastError := none }

/-- The document produced by the upsert branch of `saveDeliveryState`
(`$set` fields plus `$setOnInsert` plus schema defaults). -/
def insertDelivery (p : SaveParams) (now : Nat) : Delivery :=
  { messageId := p.messageId
    conversationId := p.conversationId
    senderId := p.senderId
    receiverId := p.receiverId
    messageText := p.messageText
    messageTimestamp := p.messageTimestamp
    status :=
      match p.status with
      | some s => if s = "" then "accepted" else s
      | none => "accepted"
    lastError := p.lastError
    retryCount := match p.lastError with | some _ => 1 | none => 0
    deliveredAt := none
    readAt := none
    expiresAt := expiryForStatus p.status now
    createdAt := now
    updatedAt := now }

/-- `saveDeliveryState`: upsert keyed by `messageId`. -/
def saveDeliveryState (store : List Delivery) (p : SaveParams) (now : Nat) :
    List Delivery :=
  if store.any (fun d => d.messageId = p.messageId) then
    updateFirst (fun d => d.messageId = p.messageId) (applySaveUpdate p now) store
  else store ++ [insertDelivery p now]

/-- Receiver resolution of the send path: by `firebaseUid`, then by
document id, then by phone-digit suffix (`mobile: {$regex: digits$}`). -/
def resolveUserByReceiverId (users : List UserRec) (receiverId : String) :
    Option UserRec :=
  let target := jsTrim receiverId
  if target = "" then none
  else
    match users.find? (fun u => u.firebaseUid = target) with
    | some u => some u
    | none =>
      match users.find? (fun u => u.mongoId = target) with
      | some u => some u
      | none =>
        let digits := String.mk (target.data.filter Char.isDigit)
        if digits = "" then none
        else users.find? (fun u => strEndsWith (u.mobile.getD "") digits)

/-- Outcome of the external push relay, a parameter of the send model. -/
inductive RelayOutcome
  | success
  | failure (msg : String)
deriving DecidableEq, Repr

structure SendResponse where
  httpStatus : Nat
  success : Bool
  messageId : String
  status : Option String
  queued : Bool
deriving DecidableEq, Repr

/-- Observable persistence/relay events of the send handler, in program
order. -/
inductive SendOp
  | persist (messageId : String) (status : String)
  | relayAttempt
deriving DecidableEq, Repr

/-- POST /api/messages/send.  `genMessageId` stands for the randomly
generated id used when the caller supplies none; the notification payload
(sender name lookup) only feeds the external relay and is omitted. -/
def sendMessage (users : List UserRec) (store : List Delivery)
    (senderIdRaw conversationId receiverId messageText incomingMessageId : String)
    (timestamp : Nat) (genMessageId : String) (relay : RelayOutcome) (now : Nat) :
    SendResponse × List Delivery × List SendOp :=
  let senderId := jsTrim senderIdRaw
  let trimmedConversationId := jsTrim conversationId
  let trimmedReceiverId := jsTrim receiverId
  let trimmedMessageText := jsTrim messageText
  let messageId :=
    if jsTrim incomingMessageId = "" then genMessageId else jsTrim incomingMessageId
  let payloadTimestamp := if timestamp = 0 then now else timestamp
  if trimmedConversationId = "" ∨ senderId = "" ∨ trimmedReceiverId = "" ∨
      trimmedMessageText = "" then
    (⟨400, false, "", none, false⟩, store, [])
  else if senderId = trimmedReceiverId then
    (⟨400, false, "", none, false⟩, store, [])
  else
    match resolveUserByReceiverId users trimmedReceiverId with
    | none => (⟨404, false, "", none, false⟩, store, [])
    | some receiver =>
      let receiverUid :=
        jsTrim (if receiver.firebaseUid = "" then receiver.mongoId else receiver.firebaseUid)
      if receiverUid = "" then (⟨404, false, "", none, false⟩, store, [])
      else
        let pAccepted : SaveParams :=
          ⟨messageId, trimmedConversationId, senderId, receiverUid,
            trimmedMessageText, payloadTimestamp, some "accepted", none⟩
        let store1 := saveDeliveryState store pAccepted now
        if receiver.fcmToken.getD "" = "" then
          (⟨200, true, messageId, some "accepted", true⟩, store1,
            [.persist messageId "accepted"])
        else
          match relay with
          | .success =>
            let store2 :=
              saveDeliveryState store1 { pAccepted with status := some "pushed" } now
            (⟨200, true, messageId, some "pushed", false⟩, store2,
              [.persist messageId "accepted", .relayAttempt, .persist messageId "pushed"])
          | .failure e =>
            let err := if e = "" then "FCM send failed" else e
            let store2 :=
              saveDeliveryState store1 { pAccepted with lastError := some err } now
            (⟨200, true, messageId, some "accepted", true⟩, store2,
              [.persist messageId "accepted", .relayAttempt, .persist messageId "accepted"])

/-- Error outcomes of POST /api/messages/delivery-receipt. -/
inductive ReceiptError
  | missingFields
  | invalidStatus
  | notFound
  | forbidden
deriving DecidableEq, Repr

/-- The mutation applied to the found delivery document by the
delivery-receipt handler (status advancement, error clearing, timestamp
backfill, expiry recomputation). -/
def applyReceiptUpdate (now : Nat) (normalizedStatus : String) (d : Delivery) :
    Delivery :=
  let d1 : Delivery :=
    if shouldAdvanceStatus d.status normalizedStatus then
      { d with status := normalizedStatus }
    else d
  let d2 : Delivery := { d1 with lastError := none }
  let d3 : Delivery :=
    if normalizedStatus = "delivered" ∧ d2.deliveredAt = none then
      { d2 with deliveredAt := some now }
    else d2
  let d4 : Delivery :=
    if normalizedStatus = "read" ∧ d3.readAt = none then
      let d4a : Delivery := { d3 with readAt := some now }
      if d4a.deliveredAt = none then { d4a with deliveredAt := some now } else d4a
    else d3
  { d4 with expiresAt := expiryForStatus (some normalizedStatus) now }

/-- POST /api/messages/delivery-receipt; returns the updated store and the
status echoed to the caller.  The fire-and-forget relay of the receipt back
to the sender touches no persisted state and is omitted. -/
def deliveryReceipt (store : List Delivery) (uidRaw messageId status : String)
    (now : Nat) : Except ReceiptError (List Delivery × String) :=
  let receiptBy := jsTrim uidRaw
  if messageId = "" ∨ status = "" then .error .missingFields
  else
    let normalizedStatus := jsTrim status
    if ¬ (normalizedStatus = "delivered" ∨ normalizedStatus = "read") then
      .error .invalidStatus
    else
      match store.find? (fun d => d.messageId = jsTrim messageId) with
      | none => .error .notFound
      | some delivery =>
        if jsTrim delivery.receiverId ≠ receiptBy then .error .forbidden
        else
          let updated := applyReceiptUpdate now normalizedStatus delivery
          .ok (updateFirst (fun d => d.messageId = jsTrim messageId)
                (fun _ => updated) store,
              updated.status)

/-- Error outcomes of GET /api/messages/pending-sync. -/
inductive SyncError
  | unauthorized
  | missingConversation
  | forbidden
deriving DecidableEq, Repr

/-- Ordering used by pending-sync: message timestamp, then creation order. -/
def syncOrder (a b : Delivery) : Prop :=
  a.messageTimestamp < b.messageTimestamp ∨
    (a.messageTimestamp = b.messageTimestamp ∧ a.createdAt ≤ b.createdAt)

instance : DecidableRel syncOrder := fun a b => by
  unfold syncOrder
  infer_instance

instance : IsTotal Delivery syncOrder :=
  ⟨fun a b => by unfold syncOrder; omega⟩

instance : IsTrans Delivery syncOrder :=
  ⟨fun a b c hab hbc => by unfold syncOrder at *; omega⟩

/-- The participant identities encoded in a conversation id
(`conversationId.split('_').filter(Boolean)`). -/
def conversationParticipants (conversationId : String) : List String :=
  (splitOnChar '_' conversationId).filter (fun s => s ≠ "")

/-- GET /api/messages/pending-sync: participant check, then the store query
(`receiverId = uid`, non-failed status, `messageTimestamp > since`), sorted
by message timestamp then creation order, capped by the clamped limit. -/
def pendingSync (store : List Delivery) (uidRaw conversationId : String)
    (sinceTimestamp : Nat) (limitRaw : Option Nat) :
    Except SyncError (List Delivery) :=
  let uid := jsTrim uidRaw
  let limit := match limitRaw with
    | some n => min (max n 1) 200
    | none => 100
  if uid = "" then .error .unauthorized
  else if conversationId = "" then .error .missingConversation
  else if uid ∉ conversationParticipants conversationId then .error .forbidden
  else
    .ok ((List.insertionSort syncOrder
          (store.filter (fun d =>
            d.conversationId = conversationId ∧ d.receiverId = uid ∧
            (d.status = "accepted" ∨ d.status = "pushed" ∨
              d.status = "delivered" ∨ d.status = "read") ∧
            sinceTimestamp < d.messageTimestamp))).take limit)

/-! ## Phone ownership ledger and claim workflow (auth route module)

`PhoneLink` and `PhoneClaim` documents are modelled as records; the claim
workflow state bundles the three collections the handlers touch. -/

structure PhoneLinkRec where
  userId : String
  phoneNormalized : String
  fullPhone : String
  isCurrent : Bool
  validFrom : Option Nat
  validTo : Option Nat
deriving DecidableEq, Repr

structure PhoneClaimRec where
  id : String
  phoneNormalized : String
  targetOwnerId : String
  requesterId : String
  status : String
  rejectCount : Nat
  blockedByTarget : Bool
deriving DecidableEq, Repr

structure ClaimState where
  links : List PhoneLinkRec
  users : List UserRec
  claims : List PhoneClaimRec
deriving DecidableEq, Repr

/-- Deduplication preserving first occurrence (`[...new Set(xs)]`). -/
def dedupFirst (seen : List String) : List String → List String
  | [] => []
  | x :: xs => if x ∈ seen then dedupFirst seen xs else x :: dedupFirst (x :: seen) xs

/-- `generateSearchableTerms` of the auth route module: display-name words,
username, normalized phone, display phone, deduplicated. -/
def generateSearchableTerms (u : UserRec) : List String :=
  let terms :=
    (match u.displayName with
     | some dn => (splitOnChar ' ' (strToLower dn)).filter (fun s => s ≠ "")
     | none => [])
    ++ (match u.username with | some un => [strToLower un] | none => [])
    ++ (match u.mobileNormalized with | some m => [m] | none => [])
    ++ (match u.mobile with | some m => [m] | none => [])
  dedupFirst [] (terms.filter (fun s => s ≠ ""))

/-- `document.save()` on a user fetched by `firebaseUid`: replace the
matching record(s). -/
def saveUser (users : List UserRec) (u : UserRec) : List UserRec :=
  users.map (fun v => if v.firebaseUid = u.firebaseUid then u else v)

/-- `claim.save()` on a claim fetched by id. -/
def updateClaim (claims : List PhoneClaimRec) (id : String)
    (f : PhoneClaimRec → PhoneClaimRec) : List PhoneClaimRec :=
  claims.map (fun c => if c.id = id then f c else c)

/-- `syncPhoneLinks` (auth route module version): close the previous
current link when the key changed, refresh the display phone on an existing
current link for the new key, create a current link when none exists.
Returns the updated ledger and the new normalized key. -/
def syncPhoneLinks (links : List PhoneLinkRec)
    (userId nextFullPhone prevNormalized : String) (now : Nat) :
    List PhoneLinkRec × String :=
  let nextNormalized := normalizePhoneForLookup nextFullPhone
  let links1 :=
    if prevNormalized ≠ "" ∧ prevNormalized ≠ nextNormalized then
      links.map (fun l =>
        if l.userId = userId ∧ l.phoneNormalized = prevNormalized ∧ l.isCurrent then
          { l with isCurrent := false, validTo := some now }
        else l)
    else links
  if nextNormalized = "" then (links1, "")
  else
    let links2 := links1.map (fun l =>
      if l.userId = userId ∧ l.phoneNormalized = nextNormalized ∧ l.isCurrent then
        { l with fullPhone := normalizeFullPhone nextFullPhone, validTo := none }
      else l)
    match links2.find? (fun l =>
        l.userId = userId && l.phoneNormalized = nextNormalized && l.isCurrent) with
    | some _ => (links2, nextNormalized)
    | none =>
      (links2 ++ [{ userId := userId, phoneNormalized := nextNormalized,
                    fullPhone := normalizeFullPhone nextFullPhone,
                    isCurrent := true, validFrom := some now, validTo := none }],
        nextNormalized)

/-- Outcomes of POST /phone-claims/request. -/
inductive RequestOutcome
  | invalidPhone
  | noOwner
  | alreadyOwn
  | blockedRequester
  | alreadyPending (c : PhoneClaimRec)
  | created (c : PhoneClaimRec) (requiresBlockOption : Bool)
deriving DecidableEq, Repr

/-- POST /phone-claims/request.  `newClaimId` stands for the id the store
assigns to a newly created claim document. -/
def requestClaim (st : ClaimState) (requesterId rawPhone newClaimId : String) :
    RequestOutcome × ClaimState :=
  let normalizedPhone := normalizePhoneForLookup rawPhone
  if normalizedPhone = "" then (.invalidPhone, st)
  else
    match st.links.find? (fun l =>
        l.phoneNormalized = normalizedPhone && l.isCurrent) with
    | none => (.noOwner, st)
    | some activeOwner =>
      if activeOwner.userId = requesterId then (.alreadyOwn, st)
      else if (st.claims.find? (fun c =>
          c.requesterId = requesterId && c.targetOwnerId = activeOwner.userId &&
          c.phoneNormalized = normalizedPhone && c.status = "blocked" &&
          c.blockedByTarget)).isSome then
        (.blockedRequester, st)
      else
        let rejectedCount := (st.claims.filter (fun c =>
          c.requesterId = requesterId && c.targetOwnerId = activeOwner.userId &&
          c.phoneNormalized = normalizedPhone && c.status = "rejected")).length
        match st.claims.find? (fun c =>
            c.requesterId = requesterId && c.targetOwnerId = activeOwner.userId &&
            c.phoneNormalized = normalizedPhone && c.status = "pending") with
        | some existing => (.alreadyPending existing, st)
        | none =>
          let newClaim : PhoneClaimRec :=
            { id := newClaimId, phoneNormalized := normalizedPhone,
              targetOwnerId := activeOwner.userId, requesterId := requesterId,
              status := "pending", rejectCount := rejectedCount,
              blockedByTarget := false }
          (.created newClaim (decide (2 ≤ rejectedCount)),
            { st with claims := st.claims ++ [newClaim] })

/-- Outcomes of POST /phone-claims/respond. -/
inductive RespondOutcome
  | claimNotFound
  | forbidden
  | notPending
  | rejectedOk
  | blockedOk
  | invalidAction
  | approvalRequired
  | conflictNotOwned
  | accountNotFound
  | approvedOk
deriving DecidableEq, Repr

/-- Observable store writes of the respond handler, in program order. -/
inductive ClaimOp
  | closeCurrentLinks (phone : String)
  | openLink (userId phone : String)
  | saveUserRecord (uid : String)
  | saveClaim (id : String) (status : String)
deriving DecidableEq, Repr

/-- POST /phone-claims/respond: owner-only response to a pending claim;
`approve` re-verifies ownership, closes all current links for the phone,
opens the requester's link via `syncPhoneLinks`, clears the former owner's
phone fields when they held the number, writes the requester's phone
fields, and marks the claim approved. -/
def respondToClaim (st : ClaimState) (targetOwnerId claimId action : String)
    (pinApproved biometricApproved : Bool) (now : Nat) :
    RespondOutcome × ClaimState × List ClaimOp :=
  match st.claims.find? (fun c => c.id = claimId) with
  | none => (.claimNotFound, st, [])
  | some claim =>
    if claim.targetOwnerId ≠ targetOwnerId then (.forbidden, st, [])
    else if claim.status ≠ "pending" then (.notPending, st, [])
    else if action = "reject" then
      (.rejectedOk,
        { st with claims := updateClaim st.claims claim.id (fun c =>
            { c with status := "rejected", rejectCount := c.rejectCount + 1 }) },
        [.saveClaim claim.id "rejected"])
    else if action = "block" then
      (.blockedOk,
        { st with claims := updateClaim st.claims claim.id (fun c =>
            { c with status := "blocked", blockedByTarget := true }) },
        [.saveClaim claim.id "blocked"])
    else if action ≠ "approve" then (.invalidAction, st, [])
    else if ¬pinApproved ∧ ¬biometricApproved then (.approvalRequired, st, [])
    else
      let phoneNormalized := claim.phoneNormalized
      let requesterId := claim.requesterId
      match st.links.find? (fun l =>
          l.phoneNormalized = phoneNormalized && l.isCurrent &&
          l.userId = targetOwnerId) with
      | none =>
        (.conflictNotOwned,
          { st with claims := updateClaim st.claims claim.id (fun c =>
              { c with status := "rejected" }) },
          [.saveClaim claim.id "rejected"])
      | some activeOwnerLink =>
        match st.users.find? (fun u => u.firebaseUid = targetOwnerId),
            st.users.find? (fun u => u.firebaseUid = requesterId) with
        | some ownerUser, some requesterUser =>
          let links1 := st.links.map (fun l =>
            if l.phoneNormalized = phoneNormalized ∧ l.isCurrent then
              { l with isCurrent := false, validTo := some now }
            else l)
          let transferPhone :=
            if activeOwnerLink.fullPhone = "" then phoneNormalized
            else activeOwnerLink.fullPhone
          let links2 := (syncPhoneLinks links1 requesterId transferPhone "" now).1
          let ownerHeld := (ownerUser.mobileNormalized.getD "") = phoneNormalized
          let users1 :=
            if ownerHeld then
              let cleared : UserRec :=
                { ownerUser with mobile := none, mobileNormalized := none }
              saveUser st.users
                { cleared with searchableTerms := generateSearchableTerms cleared }
            else st.users
          let updatedRequester : UserRec :=
            { requesterUser with
              mobile := some transferPhone,
              mobileNormalized := some phoneNormalized }
          let users2 := saveUser users1
            { updatedRequester with
              searchableTerms := generateSearchableTerms updatedRequester }
          let claims1 := updateClaim st.claims claim.id (fun c =>
            { c with status := "approved" })
          (.approvedOk,
            { links := links2, users := users2, claims := claims1 },
            [.closeCurrentLinks phoneNormalized,
              .openLink requesterId phoneNormalized] ++
              (if ownerHeld then [.saveUserRecord targetOwnerId] else []) ++
              [.saveUserRecord requesterId, .saveClaim claim.id "approved"])
        | _, _ => (.accountNotFound, st, [])

/-! ## Helper lemmas -/

theorem mem_updateFirst {α : Type} {p : α → Bool} {f : α → α} {l : List α} {y : α}
    (h : y ∈ updateFirst p f l) : ∃ x ∈ l, y = x ∨ y = f x := by
  induction l with
  | nil => simp [updateFirst] at h
  | cons x xs ih =>
    unfold updateFirst at h
    split at h
    · rcases List.mem_cons.mp h with h1 | h1
      · exact ⟨x, List.mem_cons_self x xs, Or.inr h1⟩
      · exact ⟨y, List.mem_cons_of_mem x h1, Or.inl rfl⟩
    · rcases List.mem_cons.mp h with h1 | h1
      · exact ⟨x, List.mem_cons_self x xs, Or.inl h1⟩
      · obtain ⟨z, hz, hy⟩ := ih h1
        exact ⟨z, List.mem_cons_of_mem x hz, hy⟩

theorem find?_updateFirst {α : Type} (p : α → Bool) (f : α → α) (l : List α)
    (hf : ∀ x, p x = true → p (f x) = true) :
    List.find? p (updateFirst p f l) = (List.find? p l).map f := by
  induction l with
  | nil => rfl
  | cons x xs ih =>
    unfold updateFirst
    by_cases hx : p x = true
    · rw [if_pos hx, List.find?_cons_of_pos _ (hf x hx), List.find?_cons_of_pos _ hx]
      rfl
    · rw [if_neg hx, List.find?_cons_of_neg _ hx,
        List.find?_cons_of_neg _ hx, ih]

theorem shouldAdvanceStatus_iff (a b : String) :
    shouldAdvanceStatus a b = true ↔ statusRank a ≤ statusRank b := by
  simp [shouldAdvanceStatus]

theorem applyReceiptUpdate_status (now : Nat) (ns : String) (d : Delivery) :
    (applyReceiptUpdate now ns d).status =
      if shouldAdvanceStatus d.status ns then ns else d.status := by
  dsimp only [applyReceiptUpdate]
  split_ifs <;> rfl

theorem applyReceiptUpdate_messageId (now : Nat) (ns : String) (d : Delivery) :
    (applyReceiptUpdate now ns d).messageId = d.messageId := by
  dsimp only [applyReceiptUpdate]
  split_ifs <;> rfl

theorem statusRank_applyReceiptUpdate (now : Nat) (ns : String) (d : Delivery) :
    statusRank d.status ≤ statusRank (applyReceiptUpdate now ns d).status := by
  rw [applyReceiptUpdate_status]
  split_ifs with h
  · exact (shouldAdvanceStatus_iff _ _).mp h
  · exact le_refl _

/-! ## C3: delivery status never regresses -/

/-- C3: for every delivery record and receiver-submitted receipt, a
successful delivery-receipt call only rewrites records so that the status
rank never decreases (in particular a `delivered` record never drops below
rank 3), and the receipt status is written exactly when its rank is at
least the current rank. -/
theorem deliveryReceipt_status_monotone
    (store : List Delivery) (uid mid st : String) (now : Nat)
    (out : List Delivery × String)
    (hok : deliveryReceipt store uid mid st now = .ok out) :
    (∀ d' ∈ out.1, ∃ d ∈ store, d'.messageId = d.messageId ∧
        statusRank d.status ≤ statusRank d'.status ∧
        (d.status = "delivered" → 3 ≤ statusRank d'.status)) ∧
    (∀ d : Delivery,
      (applyReceiptUpdate now (jsTrim st) d).status =
        if shouldAdvanceStatus d.status (jsTrim st) then jsTrim st
        else d.status) := by
  refine ⟨?_, fun d => applyReceiptUpdate_status now (jsTrim st) d⟩
  unfold deliveryReceipt at hok
  dsimp only at hok
  split at hok
  · simp at hok
  split at hok
  · simp at hok
  split at hok
  · simp at hok
  next delivery hfind =>
    split at hok
    · simp at hok
    rw [Except.ok.injEq] at hok
    subst hok
    intro d' hd'
    dsimp only at hd'
    obtain ⟨x, hx, hcase⟩ := mem_updateFirst hd'
    rcases hcase with rfl | rfl
    · exact ⟨d', hx, rfl, le_refl _, fun hdel => by rw [hdel]; exact le_refl _⟩
    · refine ⟨delivery, List.mem_of_find?_eq_some hfind, ?_, ?_, ?_⟩
      · rw [applyReceiptUpdate_messageId]
      · exact statusRank_applyReceiptUpdate now (jsTrim st) delivery
      · intro hdel
        have := statusRank_applyReceiptUpdate now (jsTrim st) delivery
        rw [hdel] at this
        exact this

/-! ## C10: retryCount is only ever 0 or 1 -/

theorem applySaveUpdate_retryCount_err (p : SaveParams) (now : Nat) (d : Delivery)
    (e : String) (he : p.lastError = some e) :
    (applySaveUpdate p now d).retryCount = 1 := by
  dsimp only [applySaveUpdate]
  rw [he]

theorem applySaveUpdate_retryCount_none (p : SaveParams) (now : Nat) (d : Delivery)
    (he : p.lastError = none) :
    (applySaveUpdate p now d).retryCount = d.retryCount := by
  dsimp only [applySaveUpdate]
  rw [he]
  cases p.status with
  | none => rfl
  | some s =>
    by_cases h : s = ""
    · simp only [if_pos h]
    · simp only [if_neg h]

theorem insertDelivery_retryCount (p : SaveParams) (now : Nat) :
    (insertDelivery p now).retryCount =
      match p.lastError with | some _ => 1 | none => 0 := rfl

theorem saveDeliveryState_retryCount (store : List Delivery) (p : SaveParams)
    (now : Nat) (hinv : ∀ d ∈ store, d.retryCount ≤ 1) :
    ∀ d ∈ saveDeliveryState store p now, d.retryCount ≤ 1 := by
  intro d hd
  unfold saveDeliveryState at hd
  split at hd
  · obtain ⟨x, hx, hcase⟩ := mem_updateFirst hd
    rcases hcase with rfl | rfl
    · exact hinv _ hx
    · cases he : p.lastError with
      | some e =>
        rw [applySaveUpdate_retryCount_err p now x e he]
      | none =>
        rw [applySaveUpdate_retryCount_none p now x he]
        exact hinv _ hx
  · rcases List.mem_append.mp hd with h | h
    · exact hinv _ h
    · rw [List.mem_singleton.mp h, insertDelivery_retryCount]
      cases p.lastError <;> simp

theorem applyReceiptUpdate_retryCount (now : Nat) (ns : String) (d : Delivery) :
    (applyReceiptUpdate now ns d).retryCount = d.retryCount := by
  dsimp only [applyReceiptUpdate]
  split_ifs <;> rfl

theorem sendMessage_retryCount (users : List UserRec) (store : List Delivery)
    (sIa cid rid mt imi : String) (ts : Nat) (gmi : String)
    (relay : RelayOutcome) (now : Nat)
    (hinv : ∀ d ∈ store, d.retryCount ≤ 1) :
    ∀ d ∈ (sendMessage users store sIa cid rid mt imi ts gmi relay now).2.1,
      d.retryCount ≤ 1 := by
  intro d hd
  unfold sendMessage at hd
  dsimp only at hd
  repeat' split at hd
  all_goals dsimp only at hd
  all_goals
    first
      | exact hinv d hd
      | exact saveDeliveryState_retryCount _ _ _ hinv d hd
      | exact saveDeliveryState_retryCount _ _ _
          (saveDeliveryState_retryCount _ _ _ hinv) d hd

theorem deliveryReceipt_retryCount (store : List Delivery)
    (uid mid st : String) (now : Nat) (out : List Delivery × String)
    (hok : deliveryReceipt store uid mid st now = .ok out)
    (hinv : ∀ d ∈ store, d.retryCount ≤ 1) :
    ∀ d ∈ out.1, d.retryCount ≤ 1 := by
  unfold deliveryReceipt at hok
  dsimp only at hok
  split at hok
  · simp at hok
  split at hok
  · simp at hok
  split at hok
  · simp at hok
  next delivery hfind =>
    split at hok
    · simp at hok
    rw [Except.ok.injEq] at hok
    subst hok
    intro d hd
    dsimp only at hd
    obtain ⟨x, hx, hcase⟩ := mem_updateFirst hd
    rcases hcase with rfl | rfl
    · exact hinv _ hx
    · rw [applyReceiptUpdate_retryCount]
      exact hinv _ (List.mem_of_find?_eq_some hfind)

/-- C10: the retry counter of a delivery record is only ever 0 or 1: it is
0 on insert without a relay error, assigned the constant 1 whenever a relay
error is recorded, preserved by error-free updates and by receipts, and
every operation of the module keeps every stored record's counter at most
1. -/
theorem retryCount_zero_or_one :
    (∀ (p : SaveParams) (now : Nat), p.lastError = none →
        (insertDelivery p now).retryCount = 0) ∧
    (∀ (p : SaveParams) (now : Nat) (d : Delivery) (e : String),
        p.lastError = some e →
        (applySaveUpdate p now d).retryCount = 1 ∧
          (insertDelivery p now).retryCount = 1) ∧
    (∀ (p : SaveParams) (now : Nat) (d : Delivery), p.lastError = none →
        (applySaveUpdate p now d).retryCount = d.retryCount) ∧
    (∀ (users : List UserRec) (store : List Delivery)
        (sIa cid rid mt imi : String) (ts : Nat) (gmi : String)
        (relay : RelayOutcome) (now : Nat),
        (∀ d ∈ store, d.retryCount ≤ 1) →
        ∀ d ∈ (sendMessage users store sIa cid rid mt imi ts gmi relay now).2.1,
          d.retryCount ≤ 1) ∧
    (∀ (store : List Delivery) (uid mid st : String) (now : Nat)
        (out : List Delivery × String),
        deliveryReceipt store uid mid st now = Except.ok out →
        (∀ d ∈ store, d.retryCount ≤ 1) →
        ∀ d ∈ out.1, d.retryCount ≤ 1) := by
  refine ⟨?_, ?_, ?_, ?_, ?_⟩
  · intro p now he
    rw [insertDelivery_retryCount, he]
  · intro p now d e he
    exact ⟨applySaveUpdate_retryCount_err p now d e he,
      by rw [insertDelivery_retryCount, he]⟩
  · intro p now d he
    exact applySaveUpdate_retryCount_none p now d he
  · intro users store sIa cid rid mt imi ts gmi relay now hinv
    exact sendMessage_retryCount users store sIa cid rid mt imi ts gmi relay now hinv
  · intro store uid mid st now out hok hinv
    exact deliveryReceipt_retryCount store uid mid st now out hok hinv

/-! ## C5: respond-time validation guards -/

/-- C5: a respond call on a claim whose status is not `pending` fails and
leaves the state unchanged, and an approve call without a PIN or biometric
approval flag fails and leaves the state unchanged. -/
theorem respondToClaim_guard
    (st : ClaimState) (targetOwnerId claimId action : String)
    (pin bio : Bool) (now : Nat) (claim : PhoneClaimRec)
    (hfind : st.claims.find? (fun c => c.id = claimId) = some claim)
    (hown : claim.targetOwnerId = targetOwnerId) :
    (claim.status ≠ "pending" →
      respondToClaim st targetOwnerId claimId action pin bio now =
        (.notPending, st, [])) ∧
    (claim.status = "pending" → pin = false → bio = false →
      respondToClaim st targetOwnerId claimId "approve" pin bio now =
        (.approvalRequired, st, [])) := by
  constructor
  · intro hnp
    unfold respondToClaim
    rw [hfind]
    dsimp only
    rw [if_neg (fun h => h hown), if_pos hnp]
  · intro hp hpin hbio
    unfold respondToClaim
    rw [hfind]
    dsimp only
    rw [if_neg (fun h => h hown), if_neg (fun h => h hp), if_neg (by decide),
      if_neg (by decide), if_neg (by decide),
      if_pos (by subst hpin; subst hbio; exact ⟨by simp, by simp⟩)]

/-! ## C4: conflict at approval time (corrected)

The source's conflict path is not state-preserving: before returning the
409 it sets the claim's status to `rejected` and saves it. -/

def conflictDemoState : ClaimState :=
  { links := [], users := [],
    claims := [{ id := "c1", phoneNormalized := "9876543210",
                 targetOwnerId := "uidA", requesterId := "uidB",
                 status := "pending", rejectCount := 0,
                 blockedByTarget := false }] }

/-- C4 counterexample: an approval attempt on a claim whose target no
longer holds a current link for the phone fails with the conflict outcome,
yet the state does change — the claim record is flipped to `rejected`. -/
theorem respondToClaim_conflict_changes_state :
    (respondToClaim conflictDemoState "uidA" "c1" "approve" true false 0).1 =
      .conflictNotOwned ∧
    (respondToClaim conflictDemoState "uidA" "c1" "approve" true false 0).2.1 ≠
      conflictDemoState := by
  constructor
  · rfl
  · decide

/-- C4 (amended): when the approval re-verification finds no current link
for the phone held by the target, the call fails with a conflict error;
phone links and user records are untouched, but the claim itself is marked
`rejected`. -/
theorem respondToClaim_conflict
    (st : ClaimState) (targetOwnerId claimId : String)
    (pin bio : Bool) (now : Nat) (claim : PhoneClaimRec)
    (hfind : st.claims.find? (fun c => c.id = claimId) = some claim)
    (hown : claim.targetOwnerId = targetOwnerId)
    (hpend : claim.status = "pending")
    (hflag : pin = true ∨ bio = true)
    (hnolink : st.links.find? (fun l =>
        l.phoneNormalized = claim.phoneNormalized && l.isCurrent &&
        l.userId = targetOwnerId) = none) :
    respondToClaim st targetOwnerId claimId "approve" pin bio now =
      (.conflictNotOwned,
        { st with claims := updateClaim st.claims claim.id (fun c =>
            { c with status := "rejected" }) },
        [.saveClaim claim.id "rejected"]) := by
  unfold respondToClaim
  rw [hfind]
  dsimp only
  rw [if_neg (fun h => h hown), if_neg (fun h => h hpend), if_neg (by decide),
    if_neg (by decide), if_neg (by decide),
    if_neg (by rcases hflag with h | h <;> subst h <;> simp), hnolink]

/-! ## C6: claim request idempotence, reject-count seeding, block signal -/

/-- C6: a claim request on a phone with a current owner other than the
requester, with no block on the triple: an existing pending claim for the
triple is returned idempotently with no state change; otherwise a new
pending claim is appended whose reject count equals the number of prior
rejected claims for the triple, and the block option is signalled exactly
when that count is at least 2. -/
theorem requestClaim_spec
    (st : ClaimState) (requesterId rawPhone newClaimId : String)
    (activeOwner : PhoneLinkRec) (rejected : Nat)
    (hphone : normalizePhoneForLookup rawPhone ≠ "")
    (hfind : st.links.find? (fun l =>
        l.phoneNormalized = normalizePhoneForLookup rawPhone && l.isCurrent) =
      some activeOwner)
    (hne : activeOwner.userId ≠ requesterId)
    (hblocked : st.claims.find? (fun c =>
        c.requesterId = requesterId && c.targetOwnerId = activeOwner.userId &&
        c.phoneNormalized = normalizePhoneForLookup rawPhone &&
        c.status = "blocked" && c.blockedByTarget) = none)
    (hcount : (st.claims.filter (fun c =>
        c.requesterId = requesterId && c.targetOwnerId = activeOwner.userId &&
        c.phoneNormalized = normalizePhoneForLookup rawPhone &&
        c.status = "rejected")).length = rejected) :
    (∀ existing, st.claims.find? (fun c =>
        c.requesterId = requesterId && c.targetOwnerId = activeOwner.userId &&
        c.phoneNormalized = normalizePhoneForLookup rawPhone &&
        c.status = "pending") = some existing →
      requestClaim st requesterId rawPhone newClaimId =
        (.alreadyPending existing, st)) ∧
    (st.claims.find? (fun c =>
        c.requesterId = requesterId && c.targetOwnerId = activeOwner.userId &&
        c.phoneNormalized = normalizePhoneForLookup rawPhone &&
        c.status = "pending") = none →
      requestClaim st requesterId rawPhone newClaimId =
        (.created
          { id := newClaimId,
            phoneNormalized := normalizePhoneForLookup rawPhone,
            targetOwnerId := activeOwner.userId, requesterId := requesterId,
            status := "pending", rejectCount := rejected,
            blockedByTarget := false }
          (decide (2 ≤ rejected)),
        { st with claims := st.claims ++
            [{ id := newClaimId,
               phoneNormalized := normalizePhoneForLookup rawPhone,
               targetOwnerId := activeOwner.userId, requesterId := requesterId,
               status := "pending", rejectCount := rejected,
               blockedByTarget := false }] })) := by
  constructor
  · intro existing hpending
    unfold requestClaim
    rw [if_neg hphone, hfind]
    dsimp only
    rw [if_neg hne, if_neg (by rw [hblocked]; simp), hpending]
  · intro hpending
    unfold requestClaim
    rw [if_neg hphone, hfind]
    dsimp only
    rw [if_neg hne, if_neg (by rw [hblocked]; simp), hpending, hcount]

/-! ## Concrete witnesses -/

def rcptDelivery : Delivery :=
  { messageId := "m1", conversationId := "cv", senderId := "sA",
    receiverId := "rB", messageText := "hi", messageTimestamp := 5,
    status := "delivered", lastError := some "err", retryCount := 1,
    deliveredAt := some 3, readAt := none, expiresAt := 99,
    createdAt := 1, updatedAt := 2 }

def rcptUpdated : Delivery :=
  { messageId := "m1", conversationId := "cv", senderId := "sA",
    receiverId := "rB", messageText := "hi", messageTimestamp := 5,
    status := "read", lastError := none, retryCount := 1,
    deliveredAt := some 3, readAt := some 50, expiresAt := 120050,
    createdAt := 1, updatedAt := 2 }

/-- Witness for C3 at a concrete `read` receipt on a `delivered` record. -/
theorem deliveryReceipt_status_monotone_witness :
    (∀ d' ∈ [rcptUpdated], ∃ d ∈ [rcptDelivery], d'.messageId = d.messageId ∧
        statusRank d.status ≤ statusRank d'.status ∧
        (d.status = "delivered" → 3 ≤ statusRank d'.status)) ∧
    (∀ d : Delivery,
      (applyReceiptUpdate 50 (jsTrim "read") d).status =
        if shouldAdvanceStatus d.status (jsTrim "read") then jsTrim "read"
        else d.status) :=
  deliveryReceipt_status_monotone [rcptDelivery] "rB" "m1" "read" 50
    ([rcptUpdated], "read") (by rfl)

def errSaveParams : SaveParams :=
  { messageId := "m1", conversationId := "cv", senderId := "sA",
    receiverId := "rB", messageText := "hi", messageTimestamp := 5,
    status := some "accepted", lastError := some "boom" }

/-- Witness for C10: the failure-path save writes exactly retry count 1. -/
theorem retryCount_zero_or_one_witness :
    (applySaveUpdate errSaveParams 0 rcptDelivery).retryCount = 1 ∧
    (insertDelivery errSaveParams 0).retryCount = 1 :=
  retryCount_zero_or_one.2.1 errSaveParams 0 rcptDelivery "boom" rfl

def resolvedDemoState : ClaimState :=
  { links := [], users := [],
    claims := [{ id := "c1", phoneNormalized := "9876543210",
                 targetOwnerId := "uidA", requesterId := "uidB",
                 status := "approved", rejectCount := 0,
                 blockedByTarget := false }] }

/-- Witness for C5: re-approving an already approved claim fails with the
non-pending error and leaves the state unchanged. -/
theorem respondToClaim_guard_witness :
    respondToClaim resolvedDemoState "uidA" "c1" "approve" true false 0 =
      (.notPending, resolvedDemoState, []) :=
  (respondToClaim_guard resolvedDemoState "uidA" "c1" "approve" true false 0
    { id := "c1", phoneNormalized := "9876543210", targetOwnerId := "uidA",
      requesterId := "uidB", status := "approved", rejectCount := 0,
      blockedByTarget := false }
    (by decide) rfl).1 (by decide)

/-- Witness for C4's amended statement at a concrete conflicting state. -/
theorem respondToClaim_conflict_witness :
    respondToClaim conflictDemoState "uidA" "c1" "approve" true false 0 =
      (.conflictNotOwned,
        { conflictDemoState with
          claims := updateClaim conflictDemoState.claims "c1" (fun c =>
            { c with status := "rejected" }) },
        [.saveClaim "c1" "rejected"]) :=
  respondToClaim_conflict conflictDemoState "uidA" "c1" true false 0
    { id := "c1", phoneNormalized := "9876543210", targetOwnerId := "uidA",
      requesterId := "uidB", status := "pending", rejectCount := 0,
      blockedByTarget := false }
    (by decide) rfl rfl (Or.inl rfl) rfl

def blockDemoState : ClaimState :=
  { links := [{ userId := "uidA", phoneNormalized := "9876543210",
                fullPhone := "+919876543210", isCurrent := true,
                validFrom := some 0, validTo := none }],
    users := [],
    claims := [{ id := "r1", phoneNormalized := "9876543210",
                 targetOwnerId := "uidA", requesterId := "uidB",
                 status := "rejected", rejectCount := 1,
                 blockedByTarget := false },
               { id := "r2", phoneNormalized := "9876543210",
                 targetOwnerId := "uidA", requesterId := "uidB",
                 status := "rejected", rejectCount := 2,
                 blockedByTarget := false }] }

def blockDemoNewClaim : PhoneClaimRec :=
  { id := "c9", phoneNormalized := "9876543210", targetOwnerId := "uidA",
    requesterId := "uidB", status := "pending", rejectCount := 2,
    blockedByTarget := false }

/-- Witness for C6: after two rejections a new claim is created with reject
count 2 and the block option signalled. -/
theorem requestClaim_spec_witness :
    requestClaim blockDemoState "uidB" "9876543210" "c9" =
      (.created blockDemoNewClaim true,
        { blockDemoState with
          claims := blockDemoState.claims ++ [blockDemoNewClaim] }) :=
  (requestClaim_spec blockDemoState "uidB" "9876543210" "c9"
    { userId := "uidA", phoneNormalized := "9876543210",
      fullPhone := "+919876543210", isCurrent := true,
      validFrom := some 0, validTo := none }
    2 (by decide) (by decide) (by decide) (by decide) (by decide)).2 (by decide)

/-! ## C2: relay failure is invisible to the sender -/

theorem applySaveUpdate_messageId (p : SaveParams) (now : Nat) (d : Delivery) :
    (applySaveUpdate p now d).messageId = d.messageId := by
  unfold applySaveUpdate
  cases p.lastError <;> cases p.status <;> dsimp only <;>
    first | rfl | (split_ifs <;> rfl)

theorem find?_saveDeliveryState (store : List Delivery) (p : SaveParams)
    (now : Nat) (key : String) (hkey : p.messageId = key) :
    (saveDeliveryState store p now).find? (fun d => d.messageId = key) =
      some (match store.find? (fun d => d.messageId = key) with
            | some d => applySaveUpdate p now d
            | none => insertDelivery p now) := by
  subst hkey
  unfold saveDeliveryState
  split
  next hany =>
    rw [find?_updateFirst _ _ _ (fun x hx => by
      rw [decide_eq_true_eq] at hx ⊢
      rw [applySaveUpdate_messageId, hx])]
    have hsome : (store.find? (fun d => d.messageId = p.messageId)).isSome :=
      List.find?_isSome.mpr (List.any_eq_true.mp hany)
    obtain ⟨d, hd⟩ := Option.isSome_iff_exists.mp hsome
    rw [hd]
    rfl
  next hany =>
    have hnone : store.find? (fun d => d.messageId = p.messageId) = none :=
      List.find?_eq_none.mpr fun x hx hpx =>
        hany (List.any_eq_true.mpr ⟨x, hx, hpx⟩)
    rw [List.find?_append, hnone]
    simp [insertDelivery]

theorem saveDeliveryState_status_err (store : List Delivery) (p : SaveParams)
    (now : Nat) (key : String) (hkey : p.messageId = key) (s e : String)
    (hs : p.status = some s) (hne : s ≠ "") (he : p.lastError = some e) :
    ((saveDeliveryState store p now).find? (fun d => d.messageId = key)).map
      (fun d => (d.status, d.lastError)) = some (s, some e) := by
  subst hkey
  rw [find?_saveDeliveryState store p now p.messageId rfl]
  cases store.find? (fun d => d.messageId = p.messageId) with
  | none => simp [insertDelivery, hs, hne, he]
  | some d0 => simp [applySaveUpdate, hs, hne, he]

/-- C2: when the receiver is resolved, has a push token and the relay
fails, the response is still a success (HTTP 200), the persisted record for
the message keeps status `accepted` with the relay error text recorded, and
the op trace shows the accepted record persisted before the relay
attempt. -/
theorem sendMessage_relay_failure_invisible
    (users : List UserRec) (store : List Delivery)
    (senderIdRaw conversationId receiverId messageText incomingMessageId : String)
    (timestamp : Nat) (genMessageId e : String) (now : Nat)
    (receiver : UserRec) (mid err : String)
    (hvalid : ¬(jsTrim conversationId = "" ∨ jsTrim senderIdRaw = "" ∨
        jsTrim receiverId = "" ∨ jsTrim messageText = ""))
    (hneq : ¬ jsTrim senderIdRaw = jsTrim receiverId)
    (hres : resolveUserByReceiverId users (jsTrim receiverId) = some receiver)
    (huid : ¬ jsTrim (if receiver.firebaseUid = "" then receiver.mongoId
        else receiver.firebaseUid) = "")
    (htok : ¬ receiver.fcmToken.getD "" = "")
    (hmid : (if jsTrim incomingMessageId = "" then genMessageId
        else jsTrim incomingMessageId) = mid)
    (herr : (if e = "" then "FCM send failed" else e) = err) :
    (sendMessage users store senderIdRaw conversationId receiverId messageText
        incomingMessageId timestamp genMessageId (.failure e) now).1 =
      { httpStatus := 200, success := true, messageId := mid,
        status := some "accepted", queued := true } ∧
    ((sendMessage users store senderIdRaw conversationId receiverId messageText
        incomingMessageId timestamp genMessageId (.failure e) now).2.1.find?
          (fun d => d.messageId = mid)).map (fun d => (d.status, d.lastError)) =
      some ("accepted", some err) ∧
    (sendMessage users store senderIdRaw conversationId receiverId messageText
        incomingMessageId timestamp genMessageId (.failure e) now).2.2 =
      [.persist mid "accepted", .relayAttempt, .persist mid "accepted"] := by
  subst hmid
  subst herr
  unfold sendMessage
  dsimp only
  rw [if_neg hvalid, if_neg hneq, hres]
  dsimp only
  rw [if_neg huid, if_neg htok]
  refine ⟨rfl, ?_, rfl⟩
  dsimp only
  refine saveDeliveryState_status_err _ _ now
    (if jsTrim incomingMessageId = "" then genMessageId else jsTrim incomingMessageId)
    ?_ "accepted" _ ?_ (by decide) ?_ <;> rfl

/-! ## C8: sender-equals-receiver check (corrected)

The source compares the sender only against the *raw* receiver identifier
of the request, before resolution; a request that names the sender's own
phone number (or record id) passes the check, resolves back to the sender
and creates a self-addressed delivery record. -/

def selfSendUser : UserRec :=
  { firebaseUid := "uidA", mongoId := "idA", mobile := some "+919876543210",
    mobileNormalized := some "9876543210", fcmToken := none,
    displayName := some "Alice", username := some "alice",
    searchableTerms := [] }

/-- C8 counterexample: the sender `uidA` sends to their own phone number;
the resolved receiver is the sender, yet the request succeeds and a
self-addressed delivery record is created. -/
theorem sendMessage_selfByPhone_not_rejected :
    ((resolveUserByReceiverId [selfSendUser] (jsTrim "9876543210")).map
        (fun u => u.firebaseUid)) = some "uidA" ∧
    (sendMessage [selfSendUser] [] "uidA" "cv" "9876543210" "hi" "" 5 "m1"
        .success 100).1.success = true ∧
    (sendMessage [selfSendUser] [] "uidA" "cv" "9876543210" "hi" "" 5 "m1"
        .success 100).2.1.map (fun d => (d.senderId, d.receiverId)) =
      [("uidA", "uidA")] := by
  refine ⟨?_, ?_, ?_⟩ <;> decide

/-- C8 (amended): the request is rejected with a validation error and no
record is created when the sender's identity equals the *raw* receiver
identifier of the request; no equality check is made against the resolved
receiver. -/
theorem sendMessage_selfId_rejected
    (users : List UserRec) (store : List Delivery)
    (senderIdRaw conversationId receiverId messageText incomingMessageId : String)
    (timestamp : Nat) (genMessageId : String) (relay : RelayOutcome) (now : Nat)
    (hvalid : ¬(jsTrim conversationId = "" ∨ jsTrim senderIdRaw = "" ∨
        jsTrim receiverId = "" ∨ jsTrim messageText = ""))
    (heq : jsTrim senderIdRaw = jsTrim receiverId) :
    sendMessage users store senderIdRaw conversationId receiverId messageText
        incomingMessageId timestamp genMessageId relay now =
      ({ httpStatus := 400, success := false, messageId := "",
         status := none, queued := false }, store, []) := by
  unfold sendMessage
  dsimp only
  rw [if_neg hvalid, if_pos heq]

def relayDemoReceiver : UserRec :=
  { firebaseUid := "uidB", mongoId := "idB", mobile := none,
    mobileNormalized := none, fcmToken := some "tok",
    displayName := some "Bob", username := some "bob",
    searchableTerms := [] }

/-- Witness for C2 at a concrete failing relay. -/
theorem sendMessage_relay_failure_invisible_witness :
    (sendMessage [relayDemoReceiver] [] "uidS" "cv" "uidB" "hi" "m7" 5 "g"
        (.failure "boom") 100).1 =
      { httpStatus := 200, success := true, messageId := "m7",
        status := some "accepted", queued := true } ∧
    ((sendMessage [relayDemoReceiver] [] "uidS" "cv" "uidB" "hi" "m7" 5 "g"
        (.failure "boom") 100).2.1.find?
          (fun d => d.messageId = "m7")).map (fun d => (d.status, d.lastError)) =
      some ("accepted", some "boom") ∧
    (sendMessage [relayDemoReceiver] [] "uidS" "cv" "uidB" "hi" "m7" 5 "g"
        (.failure "boom") 100).2.2 =
      [.persist "m7" "accepted", .relayAttempt, .persist "m7" "accepted"] :=
  sendMessage_relay_failure_invisible [relayDemoReceiver] [] "uidS" "cv" "uidB"
    "hi" "m7" 5 "g" "boom" 100 relayDemoReceiver "m7" "boom"
    (by decide) (by decide) (by decide) (by decide) (by decide)
    (by decide) (by decide)

/-- Witness for C8's amended statement: receiver field naming the sender's
own identity is rejected with no record created. -/
theorem sendMessage_selfId_rejected_witness :
    sendMessage [selfSendUser] [] "uidA" "cv" " uidA " "hi" "" 5 "m1"
        .success 100 =
      ({ httpStatus := 400, success := false, messageId := "",
         status := none, queued := false }, [], []) :=
  sendMessage_selfId_rejected [selfSendUser] [] "uidA" "cv" " uidA " "hi" ""
    5 "m1" .success 100 (by decide) (by decide)

/-! ## C7: pending-sync visibility, filtering, ordering, page bound -/

/-- C7: a non-participant caller gets no records (forbidden), and every
record of a successful pending-sync response is a stored record whose
receiver is the caller, whose conversation is the requested one (whose
encoded participants include the caller), whose status is not `failed` and
whose message timestamp exceeds the cursor; the response is ordered by
message timestamp then creation order and capped at 200 records. -/
theorem pendingSync_spec
    (store : List Delivery) (uidRaw conversationId : String)
    (since : Nat) (limitRaw : Option Nat) :
    (jsTrim uidRaw ≠ "" → conversationId ≠ "" →
      jsTrim uidRaw ∉ conversationParticipants conversationId →
      pendingSync store uidRaw conversationId since limitRaw =
        .error .forbidden) ∧
    (∀ rows, pendingSync store uidRaw conversationId since limitRaw = .ok rows →
      jsTrim uidRaw ∈ conversationParticipants conversationId ∧
      rows.length ≤ 200 ∧
      (∀ d ∈ rows, d ∈ store ∧ d.receiverId = jsTrim uidRaw ∧
        d.conversationId = conversationId ∧ d.status ≠ "failed" ∧
        since < d.messageTimestamp) ∧
      List.Sorted syncOrder rows) := by
  constructor
  · intro huid hconv hnotmem
    unfold pendingSync
    dsimp only
    rw [if_neg huid, if_neg hconv, if_pos hnotmem]
  · intro rows hok
    unfold pendingSync at hok
    dsimp only at hok
    split at hok
    · simp at hok
    split at hok
    · simp at hok
    split at hok
    · simp at hok
    next hmem =>
      rw [Except.ok.injEq] at hok
      subst hok
      refine ⟨not_not.mp hmem, ?_, ?_, ?_⟩
      · refine le_trans (List.length_take_le _ _) ?_
        cases limitRaw with
        | none => decide
        | some n => exact min_le_right _ _
      · intro d hd
        have hd1 := List.mem_of_mem_take hd
        have hd2 := (List.perm_insertionSort syncOrder _).mem_iff.mp hd1
        obtain ⟨hdstore, hpred⟩ := List.mem_filter.mp hd2
        rw [decide_eq_true_eq] at hpred
        obtain ⟨hconv, hrecv, hstatus, hts⟩ := hpred
        refine ⟨hdstore, hrecv, hconv, ?_, hts⟩
        rcases hstatus with h | h | h | h <;> rw [h] <;> decide
      · exact List.Pairwise.sublist (List.take_sublist _ _)
          (List.sorted_insertionSort syncOrder _)

def syncDemoRow : Delivery :=
  { messageId := "m1", conversationId := "uidA_uidB", senderId := "uidA",
    receiverId := "uidB", messageText := "hi", messageTimestamp := 5,
    status := "pushed", lastError := none, retryCount := 0,
    deliveredAt := none, readAt := none, expiresAt := 99,
    createdAt := 1, updatedAt := 1 }

/-- Witness for C7 at a one-record store and its participant receiver. -/
theorem pendingSync_spec_witness :
    jsTrim "uidB" ∈ conversationParticipants "uidA_uidB" ∧
    [syncDemoRow].length ≤ 200 ∧
    (∀ d ∈ [syncDemoRow], d ∈ [syncDemoRow] ∧ d.receiverId = jsTrim "uidB" ∧
      d.conversationId = "uidA_uidB" ∧ d.status ≠ "failed" ∧
      0 < d.messageTimestamp) ∧
    List.Sorted syncOrder [syncDemoRow] :=
  (pendingSync_spec [syncDemoRow] "uidB" "uidA_uidB" 0 none).2
    [syncDemoRow] (by rfl)

/-! ## C1: the approve transfer -/

theorem mem_saveUser {users : List UserRec} {u v : UserRec}
    (h : v ∈ saveUser users u) :
    ∃ w ∈ users, v = if w.firebaseUid = u.firebaseUid then u else w := by
  obtain ⟨w, hw, hv⟩ := List.mem_map.mp h
  exact ⟨w, hw, hv.symm⟩

theorem mem_updateClaim {claims : List PhoneClaimRec} {id : String}
    {f : PhoneClaimRec → PhoneClaimRec} {c : PhoneClaimRec}
    (h : c ∈ updateClaim claims id f) :
    ∃ c0 ∈ claims, c = if c0.id = id then f c0 else c0 := by
  obtain ⟨c0, hc0, hc⟩ := List.mem_map.mp h
  exact ⟨c0, hc0, hc.symm⟩

theorem closeLinks_not_current (links : List PhoneLinkRec) (P : String) (now : Nat) :
    ∀ l ∈ links.map (fun l =>
      if l.phoneNormalized = P ∧ l.isCurrent then
        { l with isCurrent := false, validTo := some now } else l),
      l.phoneNormalized = P → l.isCurrent = false := by
  intro l hl hP
  obtain ⟨x, hx, rfl⟩ := List.mem_map.mp hl
  by_cases h : x.phoneNormalized = P ∧ x.isCurrent
  · rw [if_pos h]
  · rw [if_neg h] at hP ⊢
    cases hc : x.isCurrent with
    | false => rfl
    | true => exact absurd ⟨hP, hc⟩ h

theorem syncPhoneLinks_after_close
    (links : List PhoneLinkRec) (userId fullPhone : String) (now : Nat)
    (P : String) (hnorm : normalizePhoneForLookup fullPhone = P) (hP : P ≠ "")
    (hclosed : ∀ l ∈ links, l.phoneNormalized = P → l.isCurrent = false) :
    syncPhoneLinks links userId fullPhone "" now =
      (links ++ [{ userId := userId, phoneNormalized := P,
                   fullPhone := normalizeFullPhone fullPhone,
                   isCurrent := true, validFrom := some now, validTo := none }],
        P) := by
  unfold syncPhoneLinks
  rw [hnorm]
  dsimp only
  rw [if_neg hP, if_neg (by simp)]
  have hid : ∀ l ∈ links,
      (if l.userId = userId ∧ l.phoneNormalized = P ∧ l.isCurrent then
        { l with
          fullPhone := normalizeFullPhone fullPhone
          validTo := none }
      else l) = l := by
    intro l hl
    refine if_neg fun hcond => ?_
    have hfalse := hclosed l hl hcond.2.1
    rw [hfalse] at hcond
    exact Bool.false_ne_true hcond.2.2
  rw [List.map_congr_left hid, List.map_id']
  have hnone : links.find? (fun l =>
      l.userId = userId && l.phoneNormalized = P && l.isCurrent) = none := by
    refine List.find?_eq_none.mpr fun x hx hcond => ?_
    rcases by simpa using hcond with ⟨⟨h1, h2⟩, h3⟩
    rw [hclosed x hx h2] at h3
    exact Bool.false_ne_true h3
  rw [hnone]

/-- C1: approving a pending claim (PIN or biometric flag set, target still
holding the current link for the phone): every previously current link for
the phone ends up closed with `validTo` set, a new current link for the
requester is present and is the only current link for the phone, the former
owner's user record loses its phone fields when it held the number, the
requester's user record gains them, the claim is marked approved, and the
close of the old links is the first store write, ordered before the
requester's new link and user-record writes. -/
theorem respondToClaim_approve
    (st : ClaimState) (targetOwnerId claimId : String) (pin bio : Bool) (now : Nat)
    (claim : PhoneClaimRec) (link : PhoneLinkRec) (ownerUser requesterUser : UserRec)
    (hfind : st.claims.find? (fun c => c.id = claimId) = some claim)
    (hown : claim.targetOwnerId = targetOwnerId)
    (hpend : claim.status = "pending")
    (hflag : pin = true ∨ bio = true)
    (hlink : st.links.find? (fun l =>
        l.phoneNormalized = claim.phoneNormalized && l.isCurrent &&
        l.userId = targetOwnerId) = some link)
    (houser : st.users.find? (fun u => u.firebaseUid = targetOwnerId) =
      some ownerUser)
    (hruser : st.users.find? (fun u => u.firebaseUid = claim.requesterId) =
      some requesterUser)
    (tp : String)
    (htp : (if link.fullPhone = "" then claim.phoneNormalized
        else link.fullPhone) = tp)
    (hwf : normalizePhoneForLookup tp = claim.phoneNormalized)
    (hP : claim.phoneNormalized ≠ "")
    (hne : claim.requesterId ≠ targetOwnerId) :
    ∀ outcome st' ops,
      respondToClaim st targetOwnerId claimId "approve" pin bio now =
        (outcome, st', ops) →
      outcome = .approvedOk ∧
      (∀ l ∈ st.links, l.phoneNormalized = claim.phoneNormalized →
        l.isCurrent = true →
        ({ l with isCurrent := false, validTo := some now } : PhoneLinkRec) ∈
          st'.links) ∧
      ({ userId := claim.requesterId,
         phoneNormalized := claim.phoneNormalized,
         fullPhone := normalizeFullPhone tp,
         isCurrent := true, validFrom := some now,
         validTo := none } : PhoneLinkRec) ∈ st'.links ∧
      (∀ l ∈ st'.links, l.phoneNormalized = claim.phoneNormalized →
        l.isCurrent = true → l.userId = claim.requesterId) ∧
      (ownerUser.mobileNormalized.getD "" = claim.phoneNormalized →
        ∀ u ∈ st'.users, u.firebaseUid = targetOwnerId →
          u.mobile = none ∧ u.mobileNormalized = none) ∧
      (∀ u ∈ st'.users, u.firebaseUid = claim.requesterId →
        u.mobile = some tp ∧
        u.mobileNormalized = some claim.phoneNormalized) ∧
      (∀ c ∈ st'.claims, c.id = claim.id → c.status = "approved") ∧
      ops.head? = some (.closeCurrentLinks claim.phoneNormalized) ∧
      ops = [.closeCurrentLinks claim.phoneNormalized,
             .openLink claim.requesterId claim.phoneNormalized] ++
        (if ownerUser.mobileNormalized.getD "" = claim.phoneNormalized
         then [.saveUserRecord targetOwnerId] else []) ++
        [.saveUserRecord claim.requesterId, .saveClaim claim.id "approved"] := by
  intro outcome st' ops hres
  have houid : ownerUser.firebaseUid = targetOwnerId := by
    have := List.find?_some houser
    simpa using this
  have hruid : requesterUser.firebaseUid = claim.requesterId := by
    have := List.find?_some hruser
    simpa using this
  unfold respondToClaim at hres
  rw [hfind] at hres
  dsimp only at hres
  rw [if_neg (fun h => h hown), if_neg (fun h => h hpend), if_neg (by decide),
    if_neg (by decide), if_neg (by decide),
    if_neg (by rcases hflag with h | h <;> subst h <;> simp), hlink] at hres
  dsimp only at hres
  rw [houser, hruser] at hres
  dsimp only at hres
  rw [htp] at hres
  rw [syncPhoneLinks_after_close _ _ _ _ _ hwf hP
    (closeLinks_not_current st.links claim.phoneNormalized now)] at hres
  injection hres with h1 hrest
  injection hrest with h2 h3
  subst h1
  subst h2
  subst h3
  refine ⟨rfl, ?_, ?_, ?_, ?_, ?_, ?_, ?_, ?_⟩
  · intro l hl hphone hcur
    have hcl : (if l.phoneNormalized = claim.phoneNormalized ∧ l.isCurrent then
        ({ l with isCurrent := false, validTo := some now } : PhoneLinkRec)
      else l) = { l with isCurrent := false, validTo := some now } :=
      if_pos ⟨hphone, hcur⟩
    exact List.mem_append_left _ (hcl ▸ List.mem_map_of_mem _ hl)
  · exact List.mem_append_right _ (List.mem_singleton_self _)
  · intro l hl hphone hcur
    rcases List.mem_append.mp hl with h | h
    · rw [closeLinks_not_current st.links claim.phoneNormalized now l h hphone]
        at hcur
      exact absurd hcur (by decide)
    · rw [List.mem_singleton.mp h]
  · intro hheld u hu huid
    rw [if_pos hheld] at hu
    obtain ⟨v, hv, hveq⟩ := mem_saveUser hu
    split at hveq
    · subst hveq
      dsimp only at huid
      exact absurd (hruid ▸ huid) hne
    · subst hveq
      obtain ⟨w, hw, hweq⟩ := mem_saveUser hv
      split at hweq
      · subst hweq
        exact ⟨rfl, rfl⟩
      next hwo =>
        subst hweq
        exact absurd (by dsimp only; rw [huid, houid]) hwo
  · intro u hu huid
    obtain ⟨v, hv, hveq⟩ := mem_saveUser hu
    split at hveq
    · subst hveq
      exact ⟨rfl, rfl⟩
    next hvr =>
      subst hveq
      exact absurd (by dsimp only; rw [huid, hruid]) hvr
  · intro c hc hcid
    obtain ⟨c0, hc0, hceq⟩ := mem_updateClaim hc
    split at hceq
    · subst hceq
      rfl
    next hcn =>
      subst hceq
      exact absurd hcid hcn
  · rfl
  · rfl

def approveDemoLink : PhoneLinkRec :=
  { userId := "uidA", phoneNormalized := "9876543210",
    fullPhone := "+919876543210", isCurrent := true,
    validFrom := some 0, validTo := none }

def approveDemoClaim : PhoneClaimRec :=
  { id := "c1", phoneNormalized := "9876543210", targetOwnerId := "uidA",
    requesterId := "uidB", status := "pending", rejectCount := 0,
    blockedByTarget := false }

def approveDemoOwner : UserRec :=
  { firebaseUid := "uidA", mongoId := "idA", mobile := some "+919876543210",
    mobileNormalized := some "9876543210", fcmToken := none,
    displayName := some "Alice", username := some "alice",
    searchableTerms := [] }

def approveDemoRequester : UserRec :=
  { firebaseUid := "uidB", mongoId := "idB", mobile := none,
    mobileNormalized := none, fcmToken := some "tok",
    displayName := some "Bob", username := some "bob",
    searchableTerms := [] }

def approveDemoState : ClaimState :=
  { links := [approveDemoLink],
    users := [approveDemoOwner, approveDemoRequester],
    claims := [approveDemoClaim] }

def approveDemoFinal : ClaimState :=
  { links := [{ userId := "uidA", phoneNormalized := "9876543210",
                fullPhone := "+919876543210", isCurrent := false,
                validFrom := some 0, validTo := some 7 },
              { userId := "uidB", phoneNormalized := "9876543210",
                fullPhone := "+919876543210", isCurrent := true,
                validFrom := some 7, validTo := none }],
    users := [{ firebaseUid := "uidA", mongoId := "idA", mobile := none,
                mobileNormalized := none, fcmToken := none,
                displayName := some "Alice", username := some "alice",
                searchableTerms := ["alice"] },
              { firebaseUid := "uidB", mongoId := "idB",
                mobile := some "+919876543210",
                mobileNormalized := some "9876543210", fcmToken := some "tok",
                displayName := some "Bob", username := some "bob",
                searchableTerms := ["bob", "9876543210", "+919876543210"] }],
    claims := [{ id := "c1", phoneNormalized := "9876543210",
                 targetOwnerId := "uidA", requesterId := "uidB",
                 status := "approved", rejectCount := 0,
                 blockedByTarget := false }] }

def approveDemoOps : List ClaimOp :=
  [.closeCurrentLinks "9876543210", .openLink "uidB" "9876543210",
   .saveUserRecord "uidA", .saveUserRecord "uidB", .saveClaim "c1" "approved"]

/-- Witness for C1 at a concrete two-user transfer of `9876543210`. -/
theorem respondToClaim_approve_witness :
    RespondOutcome.approvedOk = RespondOutcome.approvedOk ∧
    (∀ l ∈ approveDemoState.links, l.phoneNormalized = "9876543210" →
      l.isCurrent = true →
      ({ l with isCurrent := false, validTo := some 7 } : PhoneLinkRec) ∈
        approveDemoFinal.links) ∧
    ({ userId := "uidB", phoneNormalized := "9876543210",
       fullPhone := normalizeFullPhone "+919876543210", isCurrent := true,
       validFrom := some 7, validTo := none } : PhoneLinkRec) ∈
      approveDemoFinal.links ∧
    (∀ l ∈ approveDemoFinal.links, l.phoneNormalized = "9876543210" →
      l.isCurrent = true → l.userId = "uidB") ∧
    (approveDemoOwner.mobileNormalized.getD "" = "9876543210" →
      ∀ u ∈ approveDemoFinal.users, u.firebaseUid = "uidA" →
        u.mobile = none ∧ u.mobileNormalized = none) ∧
    (∀ u ∈ approveDemoFinal.users, u.firebaseUid = "uidB" →
      u.mobile = some "+919876543210" ∧
      u.mobileNormalized = some "9876543210") ∧
    (∀ c ∈ approveDemoFinal.claims, c.id = "c1" → c.status = "approved") ∧
    approveDemoOps.head? = some (.closeCurrentLinks "9876543210") ∧
    approveDemoOps =
      [.closeCurrentLinks "9876543210", .openLink "uidB" "9876543210"] ++
      (if approveDemoOwner.mobileNormalized.getD "" = "9876543210"
       then [.saveUserRecord "uidA"] else []) ++
      [.saveUserRecord "uidB", .saveClaim "c1" "approved"] :=
  respondToClaim_approve approveDemoState "uidA" "c1" true false 7
    approveDemoClaim approveDemoLink approveDemoOwner approveDemoRequester
    (by decide) rfl rfl (Or.inl rfl) (by decide) (by decide) (by decide)
    "+919876543210" (by decide) (by decide) (by decide) (by decide)
    RespondOutcome.approvedOk approveDemoFinal approveDemoOps (by decide)

end AccountBackend
